import Mathlib

/-!
Shallow embedding of `src/main.rs` of the bsky-firehose-listener repository.

The embedding follows the source function by function:

* `is_haiku`, `is_english`, `save_haiku_to_file` are translated directly from
  the Rust functions of the same names.
* The body of the spawned per-message task in `main` (envelope inspection,
  commit processing, per-operation dispatch) is translated as the pure
  functions `processMessage`, `processOps`, `processOp`, `dispatchCreate`.
* External library collaborators (the serde record decoders, whatlang language
  detection, the syllarust syllable estimator, and the file-append result) are
  not part of this repository; per the specification they are black boxes with
  an input/output contract, so they are parameters, bundled in `Ext`.
* The CAR archive reader `rs_car::car_read_all` is likewise external; a
  `Commit` carries its output directly: the parsed list of
  (content-id string, bytes) blocks, next to the operation list.
* Rust string primitives used by the source (`str::lines`,
  `str::split_whitespace`, `slice::chunks`, `String::contains`) are modelled
  by `lines`, `split_whitespace`, `chunksOf`, `containsChar` with the exact
  semantics of the Rust standard library.
* Log emission (`info!` / `error!`) is modelled by the `LogLine` values a code
  path produces, and `renderLog` rebuilds the formatted message text from the
  format strings in the source; the Debug renderings supplied by external
  derive code are the `DebugFmt` parameters.
-/

namespace Firehose

/-- Characters with the Unicode White_Space property: the predicate
`char::is_whitespace` that Rust `str::split_whitespace` splits on. -/
def isUnicodeWhitespace (c : Char) : Bool :=
  ([0x0009, 0x000A, 0x000B, 0x000C, 0x000D, 0x0020, 0x0085, 0x00A0, 0x1680,
    0x2000, 0x2001, 0x2002, 0x2003, 0x2004, 0x2005, 0x2006, 0x2007, 0x2008,
    0x2009, 0x200A, 0x2028, 0x2029, 0x202F, 0x205F, 0x3000] : List UInt32).contains c.val

/-- Accumulator pass behind `split_whitespace`; `acc` holds the current word
reversed. -/
def splitWhitespaceAux : List Char → List Char → List String
  | [], acc => if acc.isEmpty then [] else [String.mk acc.reverse]
  | c :: cs, acc =>
    if isUnicodeWhitespace c then
      if acc.isEmpty then splitWhitespaceAux cs []
      else String.mk acc.reverse :: splitWhitespaceAux cs []
    else splitWhitespaceAux cs (c :: acc)

/-- Rust `str::split_whitespace`: the maximal non-empty runs of
non-whitespace characters. -/
def split_whitespace (s : String) : List String :=
  splitWhitespaceAux s.toList []

/-- Fuel-indexed body of `chunksOf`; the fuel only makes the recursion
structural and never runs out when it starts at the list length and `n` is
positive. -/
def chunksOfAux (n : Nat) : Nat → List α → List (List α)
  | 0, _ => []
  | _, [] => []
  | fuel + 1, x :: xs => (x :: xs.take (n - 1)) :: chunksOfAux n fuel (xs.drop (n - 1))

/-- Rust `slice::chunks(n)` for positive `n`: consecutive chunks of size `n`;
the final chunk may be shorter than `n` but is included. -/
def chunksOf (n : Nat) (l : List α) : List (List α) :=
  chunksOfAux n l.length l

/-- Split a character list at every newline, keeping empty groups.  Never
returns the empty list. -/
def splitNl : List Char → List (List Char)
  | [] => [[]]
  | c :: cs =>
    if c = '\n' then [] :: splitNl cs
    else
      match splitNl cs with
      | [] => [[c]]
      | g :: gs => (c :: g) :: gs

/-- Drop one trailing carriage return, as Rust `str::lines` does on every
line that was terminated by a `'\n'`. -/
def stripTrailingCr (l : List Char) : List Char :=
  if l.getLast? = some '\r' then l.dropLast else l

/-- Strip one trailing carriage return from every group except the last one:
when a string does not end with `'\n'`, its last line has no terminator, and
Rust `str::lines` keeps a trailing `'\r'` there. -/
def stripCrAllButLast : List (List Char) → List (List Char)
  | [] => []
  | [g] => [g]
  | g :: gs => stripTrailingCr g :: stripCrAllButLast gs

/-- Rust `str::lines`: split at `'\n'` terminators (a final line without a
terminator is kept, a trailing empty piece after a final `'\n'` is not), and
strip one trailing `'\r'` from each terminated line; a final unterminated
line keeps its trailing `'\r'`. -/
def lines (s : String) : List String :=
  if s.toList = [] then []
  else if s.toList.getLast? = some '\n' then
    ((splitNl s.toList).dropLast).map (fun g => String.mk (stripTrailingCr g))
  else
    (stripCrAllButLast (splitNl s.toList)).map String.mk

/-- Rust `String::contains(c)` for a single character pattern. -/
def containsChar (s : String) (c : Char) : Bool :=
  s.toList.contains c

/-- The local `lines` vector computed at the top of `is_haiku`: lines of the
text when it contains a newline, otherwise the whitespace tokens re-joined in
chunks of five. -/
def linesOf (text : String) : List String :=
  if containsChar text '\n' then lines text
  else (chunksOf 5 (split_whitespace text)).map (fun chunk => String.intercalate " " chunk)

/-- Translation of `is_haiku` from `src/main.rs`, with the external
`syllarust::estimate_syllables` heuristic abstracted as `est`. -/
def is_haiku (est : String → Nat) (text : String) : Bool :=
  if (linesOf text).length ≠ 3 then false
  else (linesOf text).map est == [5, 7, 5]

/-- Translation of `is_english` from `src/main.rs`: `whatlang::detect` is
abstracted as `detect`, returning the name of the top detected language if
any; the source accepts exactly the detections equal to `Lang::Eng`. -/
def is_english (detect : String → Option String) (text : String) : Bool :=
  match detect text with
  | none => false
  | some lang => lang == "Eng"

/-- Translation of `save_haiku_to_file` from `src/main.rs`: the byte content
appended to `haikus.txt` by
`writeln!(file, "CID: \x7b\x7d\n\x7b\x7d\n", cid, haiku)` — the format
output plus the final newline `writeln!` itself adds. -/
def save_haiku_to_file (haiku : String) (cid : String) : String :=
  "CID: " ++ cid ++ "\n" ++ haiku ++ "\n" ++ "\n"

/-- Does `needle` match at the head of the list? -/
def leadMatch : List Char → List Char → Bool
  | _, [] => true
  | [], _ :: _ => false
  | c :: cs, d :: ds => c == d && leadMatch cs ds

/-- Does `needle` occur contiguously anywhere in the list? -/
def hasSub : List Char → List Char → Bool
  | [], needle => needle.isEmpty
  | c :: cs, needle => leadMatch (c :: cs) needle || hasSub cs needle

/-- Substring occurrence on strings. -/
def strHasSub (hay needle : String) : Bool :=
  hasSub hay.toList needle.toList

/-- Rust `str::starts_with` for a string pattern. -/
def strStarts (s p : String) : Bool :=
  leadMatch s.toList p.toList

/-- Record type `app.bsky.feed.post`; only the `text` field is consumed by
the source. -/
structure PostRecord where
  text : String
deriving DecidableEq

/-- The strong reference held by like and repost subjects; only `uri` is
consumed by the source. -/
structure StrongRef where
  uri : String
deriving DecidableEq

/-- Record type `app.bsky.feed.like`. -/
structure LikeRecord where
  subject : StrongRef
deriving DecidableEq

/-- Record type `app.bsky.feed.repost`. -/
structure RepostRecord where
  subject : StrongRef
deriving DecidableEq

/-- Record type `app.bsky.graph.follow`; the subject is an account reference,
consumed only for Debug logging. -/
structure FollowRecord where
  subject : String
deriving DecidableEq

/-- One repository operation of a commit (`commit.ops` element): `action`,
`path`, and the optional content identifier, kept in string form since the
source compares content identifiers via `to_string()`. -/
structure Operation where
  action : String
  path : String
  cid : Option String
deriving DecidableEq

/-- A decoded `#commit` payload: the operation list, and the content blocks
of its embedded CAR archive as `rs_car::car_read_all` returns them
(content-id string form, block bytes). -/
structure Commit where
  ops : List Operation
  blocks : List (String × List Nat)
deriving DecidableEq

/-- A typed record decoded from a block, by collection. -/
inductive RecordVal where
  | post (r : PostRecord)
  | like (r : LikeRecord)
  | repost (r : RepostRecord)
  | follow (r : FollowRecord)
deriving DecidableEq

/-- One `info!` / `error!` call site of the per-operation processing in
`main`, with the data interpolated into its format string. -/
inductive LogLine where
  | errCouldNotFindBlock (cid : Option String)
  | infoNewHaikuFound
  | infoHaikuLine (line : String)
  | errFailedToSaveHaiku (e : String)
  | infoHaikuSaved
  | infoNewPost (cid : Option String) (text : String)
  | infoNewLike (cid : Option String) (uri : String)
  | infoNewRepost (cid : Option String) (uri : String)
  | infoNewFollow (cid : Option String) (subject : String)
  | infoUnknownEvent (path : String)
deriving DecidableEq

/-- Everything one loop iteration over `commit.ops` does, observably:
whether the block lookup (`items_iter.clone().find(...)`) was reached, the
log lines emitted, the typed record decoded (if any), the (haiku, cid) pair
appended to the sink (if any), and whether the iteration panicked (the
`operation.cid.as_ref().unwrap()` in the haiku branch). -/
structure OpTrace where
  resolvedBlocks : Bool
  logs : List LogLine
  record : Option RecordVal
  saved : Option (String × String)
  panicked : Bool
deriving DecidableEq

/-- The external collaborators of the pipeline, per their contracts: the four
serde record decoders, `whatlang::detect`, `syllarust::estimate_syllables`,
and the outcome of the sink append (`none` for success, `some e` for the
Debug text of an io error). -/
structure Ext where
  decodePost : List Nat → Option PostRecord
  decodeLike : List Nat → Option LikeRecord
  decodeRepost : List Nat → Option RepostRecord
  decodeFollow : List Nat → Option FollowRecord
  detect : String → Option String
  estimateSyllables : String → Nat
  saveResult : String → String → Option String

/-- The block lookup of `main`: find the first CAR item whose content-id
string equals the operation content-id
(`Some(cid.to_string()) == operation.cid.as_ref().map(|cid| cid.0.to_string())`). -/
def resolveBlock (blocks : List (String × List Nat)) (cid : Option String) :
    Option (String × List Nat) :=
  blocks.find? (fun b => some b.1 == cid)

/-- The collection dispatch of `main`: the four `starts_with` guards on
`operation.path`, tested in source order. -/
inductive Collection where
  | post
  | like
  | repost
  | follow
  | unknown
deriving DecidableEq

/-- Which `match` arm of the dispatch a path selects. -/
def collectionOf (path : String) : Collection :=
  if strStarts path "app.bsky.feed.post" then Collection.post
  else if strStarts path "app.bsky.feed.like" then Collection.like
  else if strStarts path "app.bsky.feed.repost" then Collection.repost
  else if strStarts path "app.bsky.graph.follow" then Collection.follow
  else Collection.unknown

/-- The log line the haiku-save result produces: an error line for a failed
append, the success line otherwise. -/
def saveLog (E : Ext) (text cidStr : String) : LogLine :=
  match E.saveResult text cidStr with
  | some e => LogLine.errFailedToSaveHaiku e
  | none => LogLine.infoHaikuSaved

/-- The `match operation.path.as_str()` body of `main`, run for a create
operation whose block resolved to `bytes`.  Decode failures
(`if let Ok(record) = ...` with no else) produce no log line.  In the haiku
branch, `operation.cid.as_ref().unwrap()` is modelled by the match on `cid`:
the `none` arm is the panic. -/
def dispatchCreate (E : Ext) (cid : Option String) (path : String)
    (bytes : List Nat) : OpTrace :=
  match collectionOf path with
  | Collection.post =>
    match E.decodePost bytes with
    | none => ⟨true, [], none, none, false⟩
    | some r =>
      if is_english E.detect r.text && is_haiku E.estimateSyllables r.text then
        match cid with
        | none =>
          ⟨true, LogLine.infoNewHaikuFound :: (lines r.text).map LogLine.infoHaikuLine,
           some (RecordVal.post r), none, true⟩
        | some c =>
          ⟨true, LogLine.infoNewHaikuFound :: ((lines r.text).map LogLine.infoHaikuLine
             ++ [saveLog E r.text c, LogLine.infoNewPost cid r.text]),
           some (RecordVal.post r),
           if (E.saveResult r.text c).isNone then some (r.text, c) else none, false⟩
      else ⟨true, [LogLine.infoNewPost cid r.text], some (RecordVal.post r), none, false⟩
  | Collection.like =>
    match E.decodeLike bytes with
    | none => ⟨true, [], none, none, false⟩
    | some r =>
      ⟨true, [LogLine.infoNewLike cid r.subject.uri], some (RecordVal.like r), none, false⟩
  | Collection.repost =>
    match E.decodeRepost bytes with
    | none => ⟨true, [], none, none, false⟩
    | some r =>
      ⟨true, [LogLine.infoNewRepost cid r.subject.uri], some (RecordVal.repost r), none, false⟩
  | Collection.follow =>
    match E.decodeFollow bytes with
    | none => ⟨true, [], none, none, false⟩
    | some r =>
      ⟨true, [LogLine.infoNewFollow cid r.subject], some (RecordVal.follow r), none, false⟩
  | Collection.unknown =>
    ⟨true, [LogLine.infoUnknownEvent path], none, none, false⟩

/-- One iteration of the `for operation in &commit.ops` loop: skip non-create
actions, resolve the block (error line and `continue` if absent), then
dispatch on the path. -/
def processOp (E : Ext) (blocks : List (String × List Nat)) (op : Operation) :
    OpTrace :=
  if op.action ≠ "create" then ⟨false, [], none, none, false⟩
  else
    match resolveBlock blocks op.cid with
    | none => ⟨true, [LogLine.errCouldNotFindBlock op.cid], none, none, false⟩
    | some b => dispatchCreate E op.cid op.path b.2

/-- The whole `for` loop: iterations run in order; a panicking iteration
(never reached, as proved below) would abort the task, so nothing after it
runs. -/
def processOps (E : Ext) (blocks : List (String × List Nat)) :
    List Operation → List OpTrace
  | [] => []
  | op :: rest =>
    if (processOp E blocks op).panicked then [processOp E blocks op]
    else processOp E blocks op :: processOps E blocks rest

/-- The generic Ipld values the envelope inspection distinguishes.  The wire
format has more shapes; for the two inspected fields only integer versus
string versus anything else matters. -/
inductive IpldV where
  | int (i : Int)
  | str (s : String)
  | bool (b : Bool)
  | bytes (b : List Nat)
deriving DecidableEq

/-- How the spawned task of `main` ends for one message, after the metadata
frame decoded to the map `env`: the `expect` panics for missing fields, the
logged early returns for mistyped fields, the `op = -1` server-error drop,
the silent drop of non-commit types, or full commit processing. -/
inductive MsgResult where
  | panicMissingOp
  | errOpNotInteger
  | errServerOp
  | panicMissingT
  | errTNotString
  | skippedNonCommit
  | commitProcessed (traces : List OpTrace)
deriving DecidableEq

/-- The envelope gate and commit processing of the spawned task, given the
decoded metadata map and the decoded commit payload.  The commit argument is
only consumed in the `t = "#commit"` arm, which is how the source only
decodes the payload there. -/
def processMessage (E : Ext) (env : List (String × IpldV)) (commit : Commit) :
    MsgResult :=
  match env.lookup "op" with
  | none => MsgResult.panicMissingOp
  | some (IpldV.int opId) =>
    if opId = -1 then MsgResult.errServerOp
    else
      match env.lookup "t" with
      | none => MsgResult.panicMissingT
      | some (IpldV.str t) =>
        if t = "#commit" then
          MsgResult.commitProcessed (processOps E commit.blocks commit.ops)
        else MsgResult.skippedNonCommit
      | some _ => MsgResult.errTNotString
  | some _ => MsgResult.errOpNotInteger

/-- All typed records a message produced. -/
def producedRecords : MsgResult → List RecordVal
  | MsgResult.commitProcessed ts => ts.filterMap (fun t => t.record)
  | _ => []

/-- Whether the task ended through one of the malformed-frame paths (missing
or mistyped `op` or `t`). -/
def isMalformedOutcome : MsgResult → Bool
  | MsgResult.panicMissingOp | MsgResult.errOpNotInteger
  | MsgResult.panicMissingT | MsgResult.errTNotString => true
  | _ => false

/-- The Debug renderings the log format strings delegate to external derive
code: Debug of `Option<CidLink>` and Debug of the follow subject. -/
structure DebugFmt where
  cidDebug : Option String → String
  subjectDebug : String → String

/-- The formatted message text of each log call site, rebuilt from the format
string literals in `src/main.rs`. -/
def renderLog (F : DebugFmt) : LogLine → String
  | LogLine.errCouldNotFindBlock cid => "Could not find block for CID " ++ F.cidDebug cid
  | LogLine.infoNewHaikuFound => "New haiku found:"
  | LogLine.infoHaikuLine l => l
  | LogLine.errFailedToSaveHaiku e => "Failed to save haiku: " ++ e
  | LogLine.infoHaikuSaved => "Haiku saved to file"
  | LogLine.infoNewPost cid text => "New post: " ++ F.cidDebug cid ++ " - " ++ text
  | LogLine.infoNewLike cid uri => "New like: " ++ F.cidDebug cid ++ " - Subject: " ++ uri
  | LogLine.infoNewRepost cid uri => "New repost: " ++ F.cidDebug cid ++ " - Subject: " ++ uri
  | LogLine.infoNewFollow cid subj => "New follow: " ++ F.cidDebug cid ++ " - Subject: " ++ F.subjectDebug subj
  | LogLine.infoUnknownEvent path => "Unknown event type: " ++ path

/-- A concrete syllable estimator satisfying the black-box contract of the
specification: count the maximal groups of consecutive vowel letters. -/
def vowelGroups : List Char → Bool → Nat
  | [], _ => 0
  | c :: cs, prevVowel =>
    if ['a', 'e', 'i', 'o', 'u', 'y'].contains c then
      (if prevVowel then 0 else 1) + vowelGroups cs true
    else vowelGroups cs false

/-- Vowel-group count of a string, used as a witness estimator. -/
def vowelGroupEst (s : String) : Nat :=
  vowelGroups s.toList false

/-- An eleven-word, newline-free text whose three chunks have vowel-group
counts 5, 7, 5. -/
def textElevenWords : String :=
  "the cat sat on mats a big dog under water university"

/-- External collaborators where every decode fails, detection is
indeterminate, and appends succeed. -/
def extNone : Ext :=
  { decodePost := fun _ => none
    decodeLike := fun _ => none
    decodeRepost := fun _ => none
    decodeFollow := fun _ => none
    detect := fun _ => none
    estimateSyllables := fun _ => 0
    saveResult := fun _ _ => none }

/-- External collaborators where post decoding always succeeds with a fixed
non-haiku text and the rest fail. -/
def extPost : Ext :=
  { extNone with decodePost := fun _ => some ⟨"an ordinary day"⟩ }

/-- A create operation on the post collection referencing block `cidA`. -/
def opPostEx : Operation :=
  ⟨"create", "app.bsky.feed.post/3kabc", some "cidA"⟩

/-- A one-block store holding `cidA`. -/
def blocksEx : List (String × List Nat) :=
  [("cidA", [7])]

/-- Create operations referencing `cidA`, the absent `cidB`, and `cidC`. -/
def op2Ex : Operation :=
  ⟨"create", "app.bsky.feed.post/3kmid", some "cidB"⟩

/-- Third create operation of the soft-failure scenario. -/
def op3Ex : Operation :=
  ⟨"create", "app.bsky.feed.post/3kzzz", some "cidC"⟩

/-- A block store holding `cidA` and `cidC` but not `cidB`. -/
def blocks2Ex : List (String × List Nat) :=
  [("cidA", [0]), ("cidC", [2])]

/-- An empty commit. -/
def commitEmpty : Commit :=
  ⟨[], []⟩

/-- A one-operation commit with a matching block. -/
def commitEx : Commit :=
  ⟨[opPostEx], blocksEx⟩

/-- Envelope carrying the server-error signal and nothing else. -/
def envOpNeg : List (String × IpldV) :=
  [("op", IpldV.int (-1))]

/-- Well-formed envelope of a non-commit message type. -/
def envSkip : List (String × IpldV) :=
  [("op", IpldV.int 1), ("t", IpldV.str "#identity")]

/-- Envelope whose `op` field is a string instead of an integer. -/
def envBadOp : List (String × IpldV) :=
  [("op", IpldV.str "bad")]

/-- A Debug rendering of `Option<CidLink>` in the shape derive code
produces. -/
def fmtEx : DebugFmt :=
  { cidDebug := fun o =>
      match o with
      | none => "None"
      | some s => "Some(CidLink(Cid(" ++ s ++ ")))"
    subjectDebug := fun s => s }

end Firehose

namespace Firehose

theorem splitNl_ne_nil (l : List Char) : splitNl l ≠ [] := by
  cases l with
  | nil => simp [splitNl]
  | cons c cs =>
    simp only [splitNl]
    split
    · simp
    · split <;> simp

theorem splitNl_glue (xs ys : List Char) :
    splitNl (xs ++ '\n' :: ys) = splitNl xs ++ splitNl ys := by
  induction xs with
  | nil => simp [splitNl]
  | cons c cs ih =>
    by_cases hc : c = '\n'
    · subst hc
      simp [splitNl, ih]
    · rcases h : splitNl cs with _ | ⟨g, gs⟩
      · exact absurd h (splitNl_ne_nil cs)
      · simp [splitNl, hc, ih, h]

theorem splitNl_of_no_nl (l : List Char) (h : '\n' ∉ l) : splitNl l = [l] := by
  induction l with
  | nil => rfl
  | cons c cs ih =>
    have hc : ¬ c = '\n' := fun hcc => h (hcc ▸ List.mem_cons_self c cs)
    have hcs : '\n' ∉ cs := fun hm => h (List.mem_cons_of_mem c hm)
    simp [splitNl, hc, ih hcs]

theorem stripTrailingCr_eq_self (l : List Char) (h : l.getLast? ≠ some '\r') :
    stripTrailingCr l = l := by
  unfold stripTrailingCr
  rw [if_neg h]

theorem strMk_toList (s : String) : String.mk s.toList = s := by
  cases s
  rfl

theorem chunksOfAux_length_le (k : Nat) :
    ∀ (fuel : Nat) (l : List α), l.length ≤ 5 * k →
      (chunksOfAux 5 fuel l).length ≤ k := by
  induction k with
  | zero =>
    intro fuel l h
    have hl : l = [] := List.eq_nil_of_length_eq_zero (by omega)
    subst hl
    cases fuel <;> simp [chunksOfAux]
  | succ k ih =>
    intro fuel l h
    cases fuel with
    | zero => simp [chunksOfAux]
    | succ f =>
      cases l with
      | nil => simp [chunksOfAux]
      | cons x xs =>
        simp only [chunksOfAux, List.length_cons]
        have hx : xs.length + 1 ≤ 5 * (k + 1) := by simpa using h
        have hlen : (xs.drop (5 - 1)).length ≤ 5 * k := by
          simp only [List.length_drop]
          omega
        have hrec := ih f (xs.drop (5 - 1)) hlen
        omega

theorem leadMatch_append (n suf : List Char) : leadMatch (n ++ suf) n = true := by
  induction n with
  | nil => cases suf <;> rfl
  | cons d ds ih => simp [leadMatch, ih]

theorem hasSub_decomp (pre mid suf : List Char) :
    hasSub (pre ++ (mid ++ suf)) mid = true := by
  induction pre with
  | nil =>
    simp only [List.nil_append]
    cases mid with
    | nil => cases suf <;> simp [hasSub, leadMatch]
    | cons m ms =>
      show hasSub (m :: (ms ++ suf)) (m :: ms) = true
      have hl : leadMatch (m :: (ms ++ suf)) (m :: ms) = true := leadMatch_append (m :: ms) suf
      simp [hasSub, hl]
  | cons p ps ih => simp [hasSub, ih]

theorem resolveBlock_cid_eq (blocks : List (String × List Nat)) (cid : Option String)
    (b : String × List Nat) (h : resolveBlock blocks cid = some b) : cid = some b.1 := by
  unfold resolveBlock at h
  have hp := List.find?_some h
  exact (eq_of_beq hp).symm

theorem dispatchCreate_not_panicked (E : Ext) (c : String) (path : String)
    (bytes : List Nat) : (dispatchCreate E (some c) path bytes).panicked = false := by
  unfold dispatchCreate
  cases hcol : collectionOf path
  case post =>
    cases E.decodePost bytes with
    | none => rfl
    | some r =>
      dsimp only
      split <;> rfl
  case like =>
    cases E.decodeLike bytes with
    | none => rfl
    | some r => rfl
  case repost =>
    cases E.decodeRepost bytes with
    | none => rfl
    | some r => rfl
  case follow =>
    cases E.decodeFollow bytes with
    | none => rfl
    | some r => rfl
  case unknown => rfl

theorem processOp_not_panicked (E : Ext) (blocks : List (String × List Nat))
    (op : Operation) : (processOp E blocks op).panicked = false := by
  unfold processOp
  split
  · rfl
  · cases hr : resolveBlock blocks op.cid with
    | none => rfl
    | some b =>
      have hc : op.cid = some b.1 := resolveBlock_cid_eq blocks op.cid b hr
      rw [hc]
      exact dispatchCreate_not_panicked E b.1 op.path b.2

theorem processOps_eq_map (E : Ext) (blocks : List (String × List Nat)) :
    ∀ ops : List Operation, processOps E blocks ops = ops.map (processOp E blocks) := by
  intro ops
  induction ops with
  | nil => rfl
  | cons op rest ih => simp [processOps, processOp_not_panicked, ih]

/-- C1 counterexample: an eleven-word text with no newline character, hence
with fewer than 15 whitespace-separated words, that `is_haiku` accepts under
a syllable estimator satisfying the black-box contract, because `chunks(5)`
also yields the final partial chunk, so eleven words already form 3 lines. -/
theorem haiku_eleven_word_accepted :
    containsChar textElevenWords '\n' = false ∧
    (split_whitespace textElevenWords).length < 15 ∧
    is_haiku vowelGroupEst textElevenWords = true := by
  exact ⟨by decide, by decide, by decide⟩

/-- C1 amended: for every syllable estimator, a post text with no newline
character and fewer than 11 whitespace-separated words is rejected by
`is_haiku`, because fewer than 3 chunks (full or partial) can be formed. -/
theorem haiku_under_eleven_words_rejected (est : String → Nat) (text : String)
    (h1 : containsChar text '\n' = false)
    (h2 : (split_whitespace text).length < 11) :
    is_haiku est text = false := by
  have hlen : (linesOf text).length ≤ 2 := by
    simp only [linesOf, h1, Bool.false_eq_true, if_false, List.length_map, chunksOf]
    exact chunksOfAux_length_le 2 _ _ (by omega)
  have h3 : (linesOf text).length ≠ 3 := by omega
  simp [is_haiku, h3]

/-- Witness for the amended C1 at a concrete three-word text and a constant
estimator. -/
theorem haiku_under_eleven_words_rejected_witness :
    containsChar "one two three" '\n' = false ∧
    (split_whitespace "one two three").length < 11 ∧
    is_haiku (fun _ => 5) "one two three" = false :=
  ⟨by decide, by decide,
   haiku_under_eleven_words_rejected (fun _ => 5) "one two three" (by decide) (by decide)⟩

/-- C2: for every syllable estimator and every post text, `is_haiku` accepts
exactly when the line segmentation yields 3 lines whose per-line estimates
are [5, 7, 5] in order. -/
theorem is_haiku_iff_lines_and_counts (est : String → Nat) (text : String) :
    is_haiku est text = true ↔
      (linesOf text).length = 3 ∧ (linesOf text).map est = [5, 7, 5] := by
  unfold is_haiku
  by_cases h : (linesOf text).length = 3
  · simp [h]
  · simp [h]

/-- C3: an envelope with op = -1, or with a t string different from
"#commit", produces no Record; the result does not depend on the commit
payload, so no payload decode is attempted. -/
theorem envelope_gating_no_records (E : Ext) (env : List (String × IpldV))
    (c c2 : Commit)
    (h : env.lookup "op" = some (IpldV.int (-1)) ∨
         ∃ s, env.lookup "t" = some (IpldV.str s) ∧ s ≠ "#commit") :
    producedRecords (processMessage E env c) = [] ∧
    processMessage E env c = processMessage E env c2 := by
  rcases h with hop | ⟨s, ht, hs⟩
  · unfold processMessage
    rw [hop]
    simp [producedRecords]
  · unfold processMessage
    rcases e : env.lookup "op" with _ | v
    · simp [producedRecords]
    · rcases v with i | s2 | b | bs
      · by_cases hi : i = -1
        · simp [hi, producedRecords]
        · rw [ht]
          simp [hi, hs, producedRecords]
      · simp [producedRecords]
      · simp [producedRecords]
      · simp [producedRecords]

/-- Witness for C3 at a concrete non-commit envelope and two different
commits. -/
theorem envelope_gating_no_records_witness :
    producedRecords (processMessage extNone envSkip commitEmpty) = [] ∧
    processMessage extNone envSkip commitEmpty = processMessage extNone envSkip commitEx :=
  envelope_gating_no_records extNone envSkip commitEmpty commitEx
    (Or.inr ⟨"#identity", by decide, by decide⟩)

/-- C4: an operation whose action is not create is skipped without further
inspection: its trace is the empty one, block resolution not reached,
independent of the block store. -/
theorem non_create_ops_skipped (E : Ext) (blocks : List (String × List Nat))
    (op : Operation) (h : op.action ≠ "create") :
    processOp E blocks op = ⟨false, [], none, none, false⟩ := by
  unfold processOp
  rw [if_pos h]

/-- Witness for C4 at a concrete delete operation. -/
theorem non_create_ops_skipped_witness :
    processOp extNone blocksEx ⟨"delete", "app.bsky.feed.post/3kabc", some "cidA"⟩ =
      ⟨false, [], none, none, false⟩ :=
  non_create_ops_skipped extNone blocksEx ⟨"delete", "app.bsky.feed.post/3kabc", some "cidA"⟩
    (by decide)

/-- C5: a create operation whose content-id has no matching block yields only
the error log line and is skipped, and the traces of all sibling operations
of the commit are exactly their independent per-operation results. -/
theorem missing_block_soft_failure_isolated (E : Ext)
    (blocks : List (String × List Nat)) (op : Operation)
    (pre post : List Operation)
    (h1 : op.action = "create") (h2 : resolveBlock blocks op.cid = none) :
    processOp E blocks op = ⟨true, [LogLine.errCouldNotFindBlock op.cid], none, none, false⟩ ∧
    processOps E blocks (pre ++ op :: post) =
      pre.map (processOp E blocks) ++
        processOp E blocks op :: post.map (processOp E blocks) := by
  constructor
  · unfold processOp
    rw [if_neg (by simp [h1]), h2]
  · rw [processOps_eq_map]
    simp

/-- Witness for C5: the three-operation commit of the specification scenario,
where the middle operation references an absent content-id. -/
theorem missing_block_soft_failure_isolated_witness :
    processOp extPost blocks2Ex op2Ex =
      ⟨true, [LogLine.errCouldNotFindBlock op2Ex.cid], none, none, false⟩ ∧
    processOps extPost blocks2Ex ([opPostEx] ++ op2Ex :: [op3Ex]) =
      [opPostEx].map (processOp extPost blocks2Ex) ++
        processOp extPost blocks2Ex op2Ex :: [op3Ex].map (processOp extPost blocks2Ex) :=
  missing_block_soft_failure_isolated extPost blocks2Ex op2Ex [opPostEx] [op3Ex]
    (by decide) (by decide)

/-- C10: a create operation with an absent content-id never resolves a block
(the comparison of some block-cid with none always fails), so it is skipped
with the could-not-find-block error; and no per-operation trace ever
panics — in particular the unwrap of the content-id in the haiku-saving
branch is unreachable with an absent content-id. -/
theorem none_cid_never_reaches_unwrap (E : Ext) (blocks : List (String × List Nat))
    (op : Operation) :
    (op.action = "create" → op.cid = none →
      processOp E blocks op = ⟨true, [LogLine.errCouldNotFindBlock none], none, none, false⟩) ∧
    (processOp E blocks op).panicked = false := by
  constructor
  · intro h1 h2
    unfold processOp
    rw [if_neg (by simp [h1]), h2]
    have hres : resolveBlock blocks none = none := by
      unfold resolveBlock
      rw [List.find?_eq_none]
      intro b hb
      simp
    rw [hres]
  · exact processOp_not_panicked E blocks op

/-- Witness for C10 at a concrete create operation with no content-id. -/
theorem none_cid_never_reaches_unwrap_witness :
    processOp extNone blocksEx ⟨"create", "app.bsky.feed.post/3kn", none⟩ =
      ⟨true, [LogLine.errCouldNotFindBlock none], none, none, false⟩ ∧
    (processOp extNone blocksEx ⟨"create", "app.bsky.feed.post/3kn", none⟩).panicked = false :=
  ⟨(none_cid_never_reaches_unwrap extNone blocksEx ⟨"create", "app.bsky.feed.post/3kn", none⟩).1
      rfl rfl,
   (none_cid_never_reaches_unwrap extNone blocksEx ⟨"create", "app.bsky.feed.post/3kn", none⟩).2⟩

theorem mem_of_getLast?_eq {α : Type} {l : List α} {a : α}
    (h : l.getLast? = some a) : a ∈ l := by
  cases l with
  | nil => simp at h
  | cons x xs =>
    have hne : x :: xs ≠ [] := by simp
    rw [List.getLast?_eq_getLast_of_ne_nil hne] at h
    have hmem := List.getLast_mem hne
    exact Option.some_inj.mp h ▸ hmem

/-- C9: for every haiku, the record appended to the durable sink is the
content-id line, then the haiku text followed by its terminating newline,
then a final blank line as separator: as a string it is exactly the
concatenation of those three parts, and line by line it is the content-id
line, the lines of the newline-terminated haiku text, and one trailing empty
line. -/
theorem saved_haiku_record_lines (haiku cid : String)
    (hc1 : '\n' ∉ cid.toList) (hc2 : '\r' ∉ cid.toList) :
    save_haiku_to_file haiku cid = ("CID: " ++ cid ++ "\n") ++ (haiku ++ "\n") ++ "\n" ∧
    lines (save_haiku_to_file haiku cid) =
      ("CID: " ++ cid) :: lines (haiku ++ "\n") ++ [""] := by
  have hnl : "\n".data = ['\n'] := rfl
  constructor
  · simp [save_haiku_to_file, String.append_assoc]
  have hL : (save_haiku_to_file haiku cid).toList
      = ("CID: ".toList ++ cid.toList) ++ '\n' :: (haiku.toList ++ '\n' :: ['\n']) := by
    simp [save_haiku_to_file, String.toList, String.data_append, hnl]
  have hno : '\n' ∉ "CID: ".toList ++ cid.toList := by
    intro hmem
    rcases List.mem_append.mp hmem with hm | hm
    · exact absurd hm (by decide)
    · exact hc1 hm
  have hone : splitNl ['\n'] = [[], []] := rfl
  have hsplit : splitNl (("CID: ".toList ++ cid.toList) ++ '\n' :: (haiku.toList ++ '\n' :: ['\n']))
      = [("CID: ".toList ++ cid.toList)] ++ (splitNl haiku.toList ++ [[], []]) := by
    rw [splitNl_glue, splitNl_glue, splitNl_of_no_nl _ hno, hone]
  have hne2 : ("CID: ".toList ++ cid.toList) ++ '\n' :: (haiku.toList ++ '\n' :: ['\n']) ≠ [] := by
    simp
  have hlast : (("CID: ".toList ++ cid.toList) ++ '\n' :: (haiku.toList ++ '\n' :: ['\n'])).getLast?
      = some '\n' := by
    have hform : ("CID: ".toList ++ cid.toList) ++ '\n' :: (haiku.toList ++ '\n' :: ['\n'])
        = (("CID: ".toList ++ cid.toList) ++ '\n' :: (haiku.toList ++ ['\n'])) ++ ['\n'] := by
      simp
    rw [hform, List.getLast?_concat]
  have hcidlast : ("CID: ".toList ++ cid.toList).getLast? ≠ some '\r' := by
    intro hcr
    rw [List.getLast?_append] at hcr
    cases hcl : cid.toList.getLast? with
    | none =>
      rw [hcl] at hcr
      exact absurd hcr (by decide)
    | some a =>
      rw [hcl] at hcr
      have ha : a = '\r' := by simpa using hcr
      subst ha
      exact hc2 (mem_of_getLast?_eq hcl)
  have hcidline : String.mk (stripTrailingCr ("CID: ".toList ++ cid.toList)) = "CID: " ++ cid := by
    rw [stripTrailingCr_eq_self _ hcidlast]
    have htl : ("CID: " ++ cid).toList = "CID: ".toList ++ cid.toList := by
      simp [String.toList, String.data_append]
    rw [← htl, strMk_toList]
  have hmid : lines (haiku ++ "\n")
      = (splitNl haiku.toList).map (fun g => String.mk (stripTrailingCr g)) := by
    have ht : (haiku ++ "\n").toList = haiku.toList ++ ['\n'] := by
      simp [String.toList, String.data_append, hnl]
    have hne3 : haiku.toList ++ ['\n'] ≠ [] := by simp
    have hlast3 : (haiku.toList ++ ['\n']).getLast? = some '\n' := List.getLast?_concat _
    unfold lines
    rw [ht, if_neg hne3, if_pos hlast3]
    rw [splitNl_glue]
    rw [show splitNl ([] : List Char) = [[]] from rfl]
    rw [List.dropLast_concat]
  have hblank : String.mk (stripTrailingCr ([] : List Char)) = "" := rfl
  rw [hmid]
  unfold lines
  rw [hL, if_neg hne2, if_pos hlast, hsplit]
  rw [show ([("CID: ".toList ++ cid.toList)] ++ (splitNl haiku.toList ++ [[], []]))
      = (("CID: ".toList ++ cid.toList) :: (splitNl haiku.toList ++ [[]])) ++ [[]] by simp]
  rw [List.dropLast_concat]
  simp only [List.map_cons, List.map_append, List.map_nil]
  rw [hcidline, hblank]
  simp

/-- Witness for C9 at a concrete content-id and a newline-terminated
three-line haiku. -/
theorem saved_haiku_record_lines_witness :
    ('\n' ∉ "bafyhaiku".toList) ∧ ('\r' ∉ "bafyhaiku".toList) ∧
    (save_haiku_to_file "old pond\nfrog leaps in\nwater sound\n" "bafyhaiku" =
      ("CID: " ++ "bafyhaiku" ++ "\n") ++ ("old pond\nfrog leaps in\nwater sound\n" ++ "\n") ++ "\n" ∧
     lines (save_haiku_to_file "old pond\nfrog leaps in\nwater sound\n" "bafyhaiku") =
      ("CID: " ++ "bafyhaiku") :: lines ("old pond\nfrog leaps in\nwater sound\n" ++ "\n") ++ [""]) :=
  ⟨by decide, by decide,
   saved_haiku_record_lines "old pond\nfrog leaps in\nwater sound\n" "bafyhaiku"
     (by decide) (by decide)⟩

/-- C6 counterexample: a create operation on the post collection whose block
resolves but whose bytes fail to decode emits no log line at all — the
decode failure is not logged. -/
theorem decode_failure_unlogged_counterexample :
    resolveBlock blocksEx opPostEx.cid = some ("cidA", [7]) ∧
    extNone.decodePost [7] = none ∧
    processOp extNone blocksEx opPostEx = ⟨true, [], none, none, false⟩ ∧
    (processOp extNone blocksEx opPostEx).logs = [] :=
  ⟨by decide, rfl, by decide, by decide⟩

/-- C6 amended: a create operation whose resolved block bytes fail to decode
as the record variant implied by the collection prefix is skipped silently
(empty log), and processing continues with the next operation of the same
commit. -/
theorem decode_failure_silently_skipped (E : Ext) (blocks : List (String × List Nat))
    (op : Operation) (b : String × List Nat) (rest : List Operation)
    (h1 : op.action = "create") (h2 : resolveBlock blocks op.cid = some b)
    (h3 : (collectionOf op.path = Collection.post ∧ E.decodePost b.2 = none) ∨
          (collectionOf op.path = Collection.like ∧ E.decodeLike b.2 = none) ∨
          (collectionOf op.path = Collection.repost ∧ E.decodeRepost b.2 = none) ∨
          (collectionOf op.path = Collection.follow ∧ E.decodeFollow b.2 = none)) :
    processOp E blocks op = ⟨true, [], none, none, false⟩ ∧
    processOps E blocks (op :: rest) =
      ⟨true, [], none, none, false⟩ :: processOps E blocks rest := by
  have hop : processOp E blocks op = ⟨true, [], none, none, false⟩ := by
    rcases h3 with ⟨hc, hd⟩ | ⟨hc, hd⟩ | ⟨hc, hd⟩ | ⟨hc, hd⟩ <;>
      simp [processOp, h1, h2, dispatchCreate, hc, hd]
  refine ⟨hop, ?_⟩
  rw [processOps_eq_map, processOps_eq_map]
  simp [hop]

/-- Witness for the amended C6 at a concrete post operation whose block bytes
fail to decode. -/
theorem decode_failure_silently_skipped_witness :
    processOp extNone blocksEx opPostEx = ⟨true, [], none, none, false⟩ ∧
    processOps extNone blocksEx (opPostEx :: []) =
      ⟨true, [], none, none, false⟩ :: processOps extNone blocksEx [] :=
  decode_failure_silently_skipped extNone blocksEx opPostEx ("cidA", [7]) []
    (by decide) (by decide) (Or.inl ⟨by decide, rfl⟩)

theorem strHasSub_of_parts (pre mid suf : String) :
    strHasSub (pre ++ mid ++ suf) mid = true := by
  unfold strHasSub
  have h : (pre ++ mid ++ suf).toList = pre.toList ++ (mid.toList ++ suf.toList) := by
    simp [String.toList, String.data_append]
  rw [h]
  exact hasSub_decomp _ _ _

theorem strHasSub_of_parts_end (pre mid : String) :
    strHasSub (pre ++ mid) mid = true := by
  unfold strHasSub
  have h : (pre ++ mid).toList = pre.toList ++ (mid.toList ++ []) := by
    simp [String.toList, String.data_append]
  rw [h]
  exact hasSub_decomp _ _ _

/-- C7 counterexample: a successfully decoded post record whose emitted log
line carries the content-id and the post text but not the uppercased action
of the operation (the action is create, and CREATE occurs nowhere in the
rendered line). -/
theorem log_action_uppercase_counterexample :
    opPostEx.action = "create" ∧
    (processOp extPost blocksEx opPostEx).logs =
      [LogLine.infoNewPost (some "cidA") "an ordinary day"] ∧
    renderLog fmtEx (LogLine.infoNewPost (some "cidA") "an ordinary day") =
      "New post: Some(CidLink(Cid(cidA))) - an ordinary day" ∧
    strHasSub "New post: Some(CidLink(Cid(cidA))) - an ordinary day" "CREATE" = false :=
  ⟨by decide, by decide, by decide, by decide⟩

/-- C7 amended: for every successfully decoded record, the emitted summary
log line (the last log of the operation) carries the Debug-rendered
content-id of the operation and the variant-specific summary — the post
text, the like or repost subject URI, or the follow subject reference — but
not the operation action. -/
theorem log_line_carries_cid_and_summary (E : Ext) (F : DebugFmt)
    (blocks : List (String × List Nat)) (op : Operation) (b : String × List Nat)
    (h1 : op.action = "create") (h2 : resolveBlock blocks op.cid = some b) :
    (∀ r, collectionOf op.path = Collection.post → E.decodePost b.2 = some r →
      (processOp E blocks op).logs.getLast? = some (LogLine.infoNewPost op.cid r.text) ∧
      strHasSub (renderLog F (LogLine.infoNewPost op.cid r.text)) (F.cidDebug op.cid) = true ∧
      strHasSub (renderLog F (LogLine.infoNewPost op.cid r.text)) r.text = true) ∧
    (∀ r, collectionOf op.path = Collection.like → E.decodeLike b.2 = some r →
      (processOp E blocks op).logs = [LogLine.infoNewLike op.cid r.subject.uri] ∧
      strHasSub (renderLog F (LogLine.infoNewLike op.cid r.subject.uri)) (F.cidDebug op.cid) = true ∧
      strHasSub (renderLog F (LogLine.infoNewLike op.cid r.subject.uri)) r.subject.uri = true) ∧
    (∀ r, collectionOf op.path = Collection.repost → E.decodeRepost b.2 = some r →
      (processOp E blocks op).logs = [LogLine.infoNewRepost op.cid r.subject.uri] ∧
      strHasSub (renderLog F (LogLine.infoNewRepost op.cid r.subject.uri)) (F.cidDebug op.cid) = true ∧
      strHasSub (renderLog F (LogLine.infoNewRepost op.cid r.subject.uri)) r.subject.uri = true) ∧
    (∀ r, collectionOf op.path = Collection.follow → E.decodeFollow b.2 = some r →
      (processOp E blocks op).logs = [LogLine.infoNewFollow op.cid r.subject] ∧
      strHasSub (renderLog F (LogLine.infoNewFollow op.cid r.subject)) (F.cidDebug op.cid) = true ∧
      strHasSub (renderLog F (LogLine.infoNewFollow op.cid r.subject)) (F.subjectDebug r.subject) = true) := by
  have hcid : op.cid = some b.1 := resolveBlock_cid_eq blocks op.cid b h2
  have hstep : processOp E blocks op = dispatchCreate E op.cid op.path b.2 := by
    simp [processOp, h1, h2]
  refine ⟨?_, ?_, ?_, ?_⟩
  · intro r hc hd
    refine ⟨?_, ?_, ?_⟩
    · rw [hstep, hcid]
      by_cases hb : (is_english E.detect r.text && is_haiku E.estimateSyllables r.text) = true
      · simp only [dispatchCreate, hc, hd, if_pos hb]
        rw [show LogLine.infoNewHaikuFound ::
              ((lines r.text).map LogLine.infoHaikuLine
                ++ [saveLog E r.text b.1, LogLine.infoNewPost (some b.1) r.text])
            = (LogLine.infoNewHaikuFound ::
                ((lines r.text).map LogLine.infoHaikuLine ++ [saveLog E r.text b.1]))
              ++ [LogLine.infoNewPost (some b.1) r.text] by simp]
        rw [List.getLast?_concat]
      · simp [dispatchCreate, hc, hd, hb]
    · rw [show renderLog F (LogLine.infoNewPost op.cid r.text)
          = "New post: " ++ F.cidDebug op.cid ++ (" - " ++ r.text) by
            simp [renderLog, String.append_assoc]]
      exact strHasSub_of_parts _ _ _
    · rw [show renderLog F (LogLine.infoNewPost op.cid r.text)
          = ("New post: " ++ F.cidDebug op.cid ++ " - ") ++ r.text by
            simp [renderLog, String.append_assoc]]
      exact strHasSub_of_parts_end _ _
  · intro r hc hd
    refine ⟨?_, ?_, ?_⟩
    · rw [hstep]
      simp [dispatchCreate, hc, hd]
    · rw [show renderLog F (LogLine.infoNewLike op.cid r.subject.uri)
          = "New like: " ++ F.cidDebug op.cid ++ (" - Subject: " ++ r.subject.uri) by
            simp [renderLog, String.append_assoc]]
      exact strHasSub_of_parts _ _ _
    · rw [show renderLog F (LogLine.infoNewLike op.cid r.subject.uri)
          = ("New like: " ++ F.cidDebug op.cid ++ " - Subject: ") ++ r.subject.uri by
            simp [renderLog, String.append_assoc]]
      exact strHasSub_of_parts_end _ _
  · intro r hc hd
    refine ⟨?_, ?_, ?_⟩
    · rw [hstep]
      simp [dispatchCreate, hc, hd]
    · rw [show renderLog F (LogLine.infoNewRepost op.cid r.subject.uri)
          = "New repost: " ++ F.cidDebug op.cid ++ (" - Subject: " ++ r.subject.uri) by
            simp [renderLog, String.append_assoc]]
      exact strHasSub_of_parts _ _ _
    · rw [show renderLog F (LogLine.infoNewRepost op.cid r.subject.uri)
          = ("New repost: " ++ F.cidDebug op.cid ++ " - Subject: ") ++ r.subject.uri by
            simp [renderLog, String.append_assoc]]
      exact strHasSub_of_parts_end _ _
  · intro r hc hd
    refine ⟨?_, ?_, ?_⟩
    · rw [hstep]
      simp [dispatchCreate, hc, hd]
    · rw [show renderLog F (LogLine.infoNewFollow op.cid r.subject)
          = "New follow: " ++ F.cidDebug op.cid ++ (" - Subject: " ++ F.subjectDebug r.subject) by
            simp [renderLog, String.append_assoc]]
      exact strHasSub_of_parts _ _ _
    · rw [show renderLog F (LogLine.infoNewFollow op.cid r.subject)
          = ("New follow: " ++ F.cidDebug op.cid ++ " - Subject: ") ++ F.subjectDebug r.subject by
            simp [renderLog, String.append_assoc]]
      exact strHasSub_of_parts_end _ _

/-- Witness for the amended C7 at a concrete decoded post record. -/
theorem log_line_carries_cid_and_summary_witness :
    (processOp extPost blocksEx opPostEx).logs.getLast? =
      some (LogLine.infoNewPost opPostEx.cid "an ordinary day") ∧
    strHasSub (renderLog fmtEx (LogLine.infoNewPost opPostEx.cid "an ordinary day"))
      (fmtEx.cidDebug opPostEx.cid) = true ∧
    strHasSub (renderLog fmtEx (LogLine.infoNewPost opPostEx.cid "an ordinary day"))
      "an ordinary day" = true :=
  (log_line_carries_cid_and_summary extPost fmtEx blocksEx opPostEx ("cidA", [7])
      (by decide) (by decide)).1 ⟨"an ordinary day"⟩ (by decide) rfl

/-- C8 counterexample: an envelope whose t field is missing but whose op
field is -1 is dropped through the server-error path, and no malformed-frame
error is raised. -/
theorem malformed_claim_server_error_counterexample :
    envOpNeg.lookup "t" = (none : Option IpldV) ∧
    processMessage extNone envOpNeg commitEmpty = MsgResult.errServerOp ∧
    isMalformedOutcome (processMessage extNone envOpNeg commitEmpty) = false :=
  ⟨by decide, by decide, by decide⟩

/-- C8 amended: an envelope whose op field is missing or mistyped, or whose
op field is an integer other than -1 while its t field is missing or
mistyped, raises a malformed-frame error; the message is dropped without
producing any Record and without touching the payload. -/
theorem malformed_envelope_dropped (E : Ext) (env : List (String × IpldV))
    (c c2 : Commit)
    (h : env.lookup "op" = none ∨
         (∃ v, env.lookup "op" = some v ∧ ∀ i, v ≠ IpldV.int i) ∨
         (∃ i, env.lookup "op" = some (IpldV.int i) ∧ i ≠ -1 ∧
           (env.lookup "t" = none ∨ ∃ v, env.lookup "t" = some v ∧ ∀ s, v ≠ IpldV.str s))) :
    isMalformedOutcome (processMessage E env c) = true ∧
    producedRecords (processMessage E env c) = [] ∧
    processMessage E env c = processMessage E env c2 := by
  rcases h with hop | ⟨v, hop, hv⟩ | ⟨i, hop, hi, ht⟩
  · unfold processMessage
    rw [hop]
    simp [isMalformedOutcome, producedRecords]
  · unfold processMessage
    rw [hop]
    rcases v with j | s | bo | bs
    · exact absurd rfl (hv j)
    · simp [isMalformedOutcome, producedRecords]
    · simp [isMalformedOutcome, producedRecords]
    · simp [isMalformedOutcome, producedRecords]
  · unfold processMessage
    rw [hop]
    rcases ht with ht | ⟨v, ht, hv⟩
    · simp [hi, ht, isMalformedOutcome, producedRecords]
    · rcases v with j | s | bo | bs
      · simp [hi, ht, isMalformedOutcome, producedRecords]
      · exact absurd rfl (hv s)
      · simp [hi, ht, isMalformedOutcome, producedRecords]
      · simp [hi, ht, isMalformedOutcome, producedRecords]

/-- Witness for the amended C8 at a concrete envelope whose op field is a
string. -/
theorem malformed_envelope_dropped_witness :
    isMalformedOutcome (processMessage extNone envBadOp commitEmpty) = true ∧
    producedRecords (processMessage extNone envBadOp commitEmpty) = [] ∧
    processMessage extNone envBadOp commitEmpty = processMessage extNone envBadOp commitEx :=
  malformed_envelope_dropped extNone envBadOp commitEmpty commitEx
    (Or.inr (Or.inl ⟨IpldV.str "bad", by decide, fun i h => IpldV.noConfusion h⟩))

end Firehose
